import Mathlib

/-!
Verification development for the DailyGit repository.

The repository contains a news aggregator (news-curator), two static
portfolio/blog sites, and a two-file rules-engine stub.  The aggregator's
backend (app/database.py, app/feed_fetcher.py, app/main.py) is not part of
the snapshot — only its frontend (static/js/app.js), its README and the
specification describe it — so the ingestion/deduplication core is modelled
from the specification, while the frontend rendering, the blog-site
renderer and the rules engine are embedded directly from the JavaScript
sources.
-/

/- ### URL normalization and deduplication key (spec-modelled) -/

/-- Lower-case every character of a string. -/
def lowerStr (s : String) : String := String.mk (s.data.map Char.toLower)

/-- Modelled from the spec: locate the first occurrence of "://" in an
absolute URL, returning the scheme (before it) and the remainder (after it).
The backend feed_fetcher.py that performs URL handling is not in the
snapshot. -/
def splitScheme : List Char → Option (List Char × List Char)
  | [] => none
  | c :: cs =>
    if c = ':' ∧ cs.take 2 = ['/', '/'] then some ([], cs.drop 2)
    else (splitScheme cs).map (fun p => (c :: p.1, p.2))

/-- Modelled from the spec: a trailing-slash-insensitive path drops one
trailing slash when present. -/
def stripTrailingSlash (p : List Char) : List Char :=
  if p.getLast? = some '/' then p.dropLast else p

/-- Modelled from the spec: "the normalized URL (lower-cased scheme+host,
trailing-slash-insensitive path)".  The host is everything after "://" up to
the first slash; the path is the rest. -/
def normalizeUrl (u : String) : String :=
  match splitScheme u.data with
  | none => lowerStr u
  | some (sch, rest) =>
    let host := rest.takeWhile (fun c => c != '/')
    let path := rest.dropWhile (fun c => c != '/')
    String.mk (sch.map Char.toLower) ++ "://" ++ String.mk (host.map Char.toLower)
      ++ String.mk (stripTrailingSlash path)

/-- Modelled from the spec: "compute the deduplication key as a stable hash
of the normalized URL".  The hash is modelled as the normalized URL itself —
a stable, collision-free stand-in for the hash function of the missing
backend (database.py's URL hashing). -/
def dedupeKeyOf (u : String) : String := normalizeUrl u

/- ### Article store (spec-modelled: the backend database.py is missing) -/

/-- Modelled from the spec: a normalized candidate article produced by the
feed fetcher and consumed by ArticleStore.upsert. -/
structure Candidate where
  sourceId : Nat
  sourceName : String
  url : String
  dedupeKey : String
  title : String
  author : Option String
  publishedAt : Option Nat
  summary : String
  category : String
deriving DecidableEq

/-- Modelled from the spec: a persisted article row (Articles table: id,
sourceId, url, dedupeKey unique, title, author, publishedAt nullable,
summary, category, isRead, isStarred, ingestedAt).  The source name is
denormalized onto the row as the query API returns it per article. -/
structure Article where
  id : Nat
  sourceId : Nat
  sourceName : String
  url : String
  dedupeKey : String
  title : String
  author : Option String
  publishedAt : Option Nat
  summary : String
  category : String
  isRead : Bool
  isStarred : Bool
  ingestedAt : Nat
deriving DecidableEq

/-- Modelled from the spec: the system of record, a table of article rows
plus the next fresh row identifier. -/
structure Store where
  articles : List Article
  nextId : Nat
deriving DecidableEq

/-- Modelled from the spec: whether a deduplication key already exists in
the store. -/
def Store.hasKey (s : Store) (k : String) : Bool :=
  s.articles.any (fun a => a.dedupeKey == k)

/-- Modelled from the spec: a freshly inserted article gets read=false,
starred=false and ingestionTimestamp=now. -/
def candidateToArticle (now : Nat) (i : Nat) (c : Candidate) : Article :=
  { id := i, sourceId := c.sourceId, sourceName := c.sourceName, url := c.url,
    dedupeKey := c.dedupeKey, title := c.title, author := c.author,
    publishedAt := c.publishedAt, summary := c.summary, category := c.category,
    isRead := false, isStarred := false, ingestedAt := now }

/-- Modelled from the spec: ArticleStore.upsert — for each candidate, if its
deduplication key already exists the candidate is skipped, otherwise it is
inserted; returns the new store with (insertedCount, skippedCount). -/
def upsert (now : Nat) : List Candidate → Store → Store × Nat × Nat
  | [], s => (s, 0, 0)
  | c :: rest, s =>
    if s.hasKey c.dedupeKey then
      let r := upsert now rest s
      (r.1, r.2.1, r.2.2 + 1)
    else
      let s1 : Store := { articles := s.articles ++ [candidateToArticle now s.nextId c],
                          nextId := s.nextId + 1 }
      let r := upsert now rest s1
      (r.1, r.2.1 + 1, r.2.2)

/-- Seconds per day, used to turn the olderThanDays threshold into a
timestamp cutoff. -/
def secondsPerDay : Nat := 86400

/-- Modelled from the spec: ArticleStore.cleanup(olderThanDays) deletes
non-starred articles whose ingestion timestamp is older than the threshold;
starred articles are always retained; returns the store and deletedCount. -/
def cleanup (now olderThanDays : Nat) (s : Store) : Store × Nat :=
  let keep : Article → Bool :=
    fun a => a.isStarred || !(decide (a.ingestedAt + olderThanDays * secondsPerDay < now))
  ({ s with articles := s.articles.filter keep },
   (s.articles.filter (fun a => !(keep a))).length)

/- ### Query path (spec-modelled) -/

/-- Modelled from the spec: result ordering is by ingestion timestamp
descending with a stable tie-break on identifier descending; `articleLE a b`
says a may come no later than b in the output. -/
def articleLE (a b : Article) : Prop :=
  b.ingestedAt < a.ingestedAt ∨ (b.ingestedAt = a.ingestedAt ∧ b.id ≤ a.id)

instance decArticleLE : DecidableRel articleLE := fun a b =>
  inferInstanceAs (Decidable (b.ingestedAt < a.ingestedAt ∨ (b.ingestedAt = a.ingestedAt ∧ b.id ≤ a.id)))

instance : IsTotal Article articleLE :=
  ⟨fun a b => by unfold articleLE; omega⟩

instance : IsTrans Article articleLE :=
  ⟨fun a b c h1 h2 => by unfold articleLE at h1 h2 ⊢; omega⟩

/-- Modelled from the spec: sort articles most-recently-ingested first,
identifier descending as tie-break. -/
def sortArticles (l : List Article) : List Article := List.insertionSort articleLE l

/-- Modelled from the spec: the independently optional, conjunctive query
filters. -/
structure Filters where
  category : Option String
  sourceName : Option String
  unreadOnly : Bool
  starredOnly : Bool
  search : Option String

/-- Case-insensitive substring match, as used by the free-text search. -/
def containsCI (hay q : String) : Bool :=
  decide ((q.data.map Char.toLower) <:+: (hay.data.map Char.toLower))

/-- Modelled from the spec: an article matches the filter set when it
satisfies every supplied filter (AND); free-text search is a
case-insensitive substring match against title and summary. -/
def matchesFilters (f : Filters) (a : Article) : Bool :=
  (match f.category with | none => true | some c => a.category == c) &&
  (match f.sourceName with | none => true | some n => a.sourceName == n) &&
  (!f.unreadOnly || !a.isRead) &&
  (!f.starredOnly || a.isStarred) &&
  (match f.search with | none => true | some q => containsCI a.title q || containsCI a.summary q)

/-- Modelled from the spec: the full ordered list of matching articles for a
filter set. -/
def matchingArticles (f : Filters) (s : Store) : List Article :=
  (sortArticles s.articles).filter (matchesFilters f)

/-- Modelled from the spec: ArticleStore.query with offset/limit pagination
over the ordered matching list, returning the page and the total matching
count. -/
def query (f : Filters) (limit offset : Nat) (s : Store) : List Article × Nat :=
  let m := matchingArticles f s
  ((m.drop offset).take limit, m.length)

/- ### Source registry (spec-modelled) -/

/-- Modelled from the spec: a configured feed source (name, homepage URL,
feed URL, category, active flag). -/
structure Source where
  id : Nat
  name : String
  url : String
  feedUrl : String
  category : String
  active : Bool
deriving DecidableEq

/-- Modelled from the spec: the registry error taxonomy (DuplicateFeedURL,
NotFound). -/
inductive RegError
  | duplicateFeedUrl
  | notFound
deriving DecidableEq

/-- Modelled from the spec: SourceRegistry.add fails with DuplicateFeedURL
when the new source's feed URL equals the feed URL of an existing active
source; otherwise the source is appended. -/
def addSource (reg : List Source) (src : Source) : Except RegError (List Source) :=
  if reg.any (fun s0 => s0.active && s0.feedUrl == src.feedUrl) then
    Except.error RegError.duplicateFeedUrl
  else
    Except.ok (reg ++ [src])

/-- Modelled from the spec: SourceRegistry.deactivate soft-disables a source
by id, or fails with NotFound. -/
def deactivate (reg : List Source) (i : Nat) : Except RegError (List Source) :=
  if reg.any (fun s0 => s0.id == i) then
    Except.ok (reg.map (fun s0 => if s0.id == i then { s0 with active := false } else s0))
  else
    Except.error RegError.notFound

/-- Modelled from the spec invariant: feed URL unique per active source. -/
def uniqueActiveFeeds (reg : List Source) : Prop :=
  ((reg.filter (fun s0 => s0.active)).map (fun s0 => s0.feedUrl)).Nodup

/- ### Feed fetcher (spec-modelled: the backend feed_fetcher.py is missing) -/

/-- Modelled from the spec: a raw feed entry as parsed from RSS/Atom XML;
optional fields may be absent. -/
structure Entry where
  url : String
  title : String
  author : Option String
  publishedAt : Option Nat
  summary : String
deriving DecidableEq

/-- Modelled from the spec: what the network hands back for a feed URL —
a parsed entry list on success, or one of the failure classes (non-2xx
status, timeout, malformed feed body). -/
inductive FeedResponse
  | ok (entries : List Entry)
  | httpError (status : Nat)
  | timeout
  | malformed
deriving DecidableEq

/-- Modelled from the spec: FetchResult — source identifier, outcome
(failure reason or none), the normalized candidates, and the count of
entries skipped for lacking a usable URL. -/
structure FetchResult where
  sourceId : Nat
  sourceName : String
  candidates : List Candidate
  skipped : Nat
  failure : Option String
deriving DecidableEq

/-- Whitespace recognised by trimming. -/
def isSpaceChar (c : Char) : Bool := c = ' ' || c = '\t' || c = '\n' || c = '\r'

/-- Trim leading and trailing whitespace from a string (explicit model of
the library strip, kept kernel-reducible). -/
def trimStr (s : String) : String :=
  String.mk (((s.data.dropWhile isSpaceChar).reverse.dropWhile isSpaceChar).reverse)

/-- Modelled from the spec: an entry has a usable URL when, after trimming,
it is an absolute URL (it carries a scheme separator). -/
def usableEntry (e : Entry) : Bool := (splitScheme (trimStr e.url).data).isSome

/-- Modelled from the spec: normalize one feed entry into a candidate —
trim the URL, compute the deduplication key from the normalized URL, and
inherit the source's category. -/
def normalizeEntry (src : Source) (e : Entry) : Candidate :=
  let u := trimStr e.url
  { sourceId := src.id, sourceName := src.name, url := u, dedupeKey := dedupeKeyOf u,
    title := e.title, author := e.author, publishedAt := e.publishedAt,
    summary := e.summary, category := src.category }

/-- Modelled from the spec: FeedFetcher.fetch — total at its boundary.  A
non-success status, timeout or malformed body yields a FetchResult carrying
a failure reason; on success, entries lacking a usable URL are dropped and
counted as skipped, the rest are normalized. -/
def fetchFeed (src : Source) (resp : FeedResponse) : FetchResult :=
  match resp with
  | FeedResponse.ok entries =>
    { sourceId := src.id, sourceName := src.name,
      candidates := (entries.filter usableEntry).map (normalizeEntry src),
      skipped := (entries.filter (fun e => !(usableEntry e))).length,
      failure := none }
  | FeedResponse.httpError status =>
    { sourceId := src.id, sourceName := src.name, candidates := [], skipped := 0,
      failure := some ("HTTP " ++ toString status) }
  | FeedResponse.timeout =>
    { sourceId := src.id, sourceName := src.name, candidates := [], skipped := 0,
      failure := some "timeout" }
  | FeedResponse.malformed =>
    { sourceId := src.id, sourceName := src.name, candidates := [], skipped := 0,
      failure := some "malformed feed body" }

/- ### Ingestion coordinator (spec-modelled) -/

/-- Modelled from the spec: the per-source outcome entry of runIngestion
(sourceName, insertedCount, skippedCount, optional failureReason). -/
structure Outcome where
  sourceName : String
  insertedCount : Nat
  skippedCount : Nat
  failureReason : Option String
deriving DecidableEq

/-- Modelled from the spec: fetch one source and hand its candidates to the
store; a fetch failure leaves the store untouched and records the reason;
the per-source skippedCount covers both URL-less entries dropped at fetch
time and duplicates skipped by upsert. -/
def processSource (world : String → FeedResponse) (now : Nat) (src : Source)
    (s : Store) : Store × Outcome :=
  let r := fetchFeed src (world src.feedUrl)
  match r.failure with
  | some reason =>
    (s, { sourceName := src.name, insertedCount := 0, skippedCount := 0,
          failureReason := some reason })
  | none =>
    let u := upsert now r.candidates s
    (u.1, { sourceName := src.name, insertedCount := u.2.1,
            skippedCount := u.2.2 + r.skipped, failureReason := none })

/-- Modelled from the spec: IngestionCoordinator.runIngestion — iterate all
active sources, fetch each, persist each source's candidates independently,
and regardless of per-source outcome proceed to the next source. -/
def runIngestion (world : String → FeedResponse) (now : Nat) :
    List Source → Store → Store × List Outcome
  | [], s => (s, [])
  | src :: rest, s =>
    if src.active then
      let p := processSource world now src s
      let r := runIngestion world now rest p.1
      (r.1, p.2 :: r.2)
    else
      runIngestion world now rest s

/- ### Dashboard frontend (embedded from news-curator/static/js/app.js) -/

/-- Embeds the replacement map of escapeHtml in app.js: each of the five
characters of the regex class maps to its HTML entity, any other character
maps to itself. -/
def escapeChar (c : Char) : String :=
  if c = '&' then "&amp;"
  else if c = '<' then "&lt;"
  else if c = '>' then "&gt;"
  else if c = '"' then "&quot;"
  else if c = '\'' then "&#039;"
  else String.singleton c

/-- Recursive worker for escapeHtml, scanning the characters left to
right as the global regex replace does. -/
def escapeHtmlAux : List Char → String
  | [] => ""
  | c :: cs => escapeChar c ++ escapeHtmlAux cs

/-- Embeds escapeHtml from app.js: a global single-character-class regex
replace, i.e. a character-wise substitution over the string. -/
def escapeHtml (text : String) : String := escapeHtmlAux text.data

/-- Truthiness of a JavaScript string-or-absent value: absent and the empty
string are falsy. -/
def truthy (o : Option String) : Bool :=
  match o with
  | none => false
  | some s => !s.isEmpty

/-- An article record as consumed by renderArticles in app.js (the JSON
shape returned by the /api/articles endpoint). -/
structure ArticleView where
  id : Nat
  title : String
  source_name : String
  author : Option String
  published_date : Option String
  category : Option String
  summary : Option String
  url : String
  is_read : Bool
  is_starred : Bool
deriving DecidableEq

/-- Embeds the per-article template literal of renderArticles in app.js
(inter-tag whitespace condensed; `fd` stands for the formatDate helper,
whose JavaScript Date/locale behaviour is abstracted as a string
function).  Title, source name, author, category and the first 200
characters of the summary pass through escapeHtml; the URL of the Read
link and the numeric id are embedded raw. -/
def renderArticleCard (fd : String → String) (a : ArticleView) : String :=
  "\n<div class=\"article-card " ++ (if a.is_read then "" else "unread")
    ++ "\">\n<div class=\"article-card-header\">\n<h3 class=\"article-card-title\" onclick=\"openArticle("
    ++ toString a.id ++ ")\">\n" ++ escapeHtml a.title
    ++ "\n</h3>\n</div>\n<div class=\"article-meta\">\n<span class=\"meta-item\">\n<strong>Source:</strong> "
    ++ escapeHtml a.source_name ++ "\n</span>\n"
    ++ (if truthy a.author then
          "<span class=\"meta-item\">\n<strong>By:</strong> "
            ++ escapeHtml (a.author.getD "") ++ "\n</span>\n"
        else "")
    ++ (if truthy a.published_date then
          "<span class=\"meta-item\">\n📅 " ++ fd (a.published_date.getD "") ++ "\n</span>\n"
        else "")
    ++ (if truthy a.category then
          "<span class=\"category-badge\">" ++ escapeHtml (a.category.getD "") ++ "</span>\n"
        else "")
    ++ "</div>\n"
    ++ (if truthy a.summary then
          "<p class=\"article-excerpt\">" ++ escapeHtml ((a.summary.getD "").take 200) ++ "...</p>\n"
        else "")
    ++ "<div class=\"article-actions\">\n<button onclick=\"toggleStar(" ++ toString a.id
    ++ ")\" class=\"btn btn-secondary\">\n" ++ (if a.is_starred then "★" else "☆")
    ++ " Star\n</button>\n<button onclick=\"markAsRead(" ++ toString a.id
    ++ ")\" class=\"btn btn-secondary\">\n✓ Mark Read\n</button>\n<a href=\""
    ++ a.url
    ++ "\" target=\"_blank\" class=\"btn btn-primary\">\nRead →\n</a>\n</div>\n</div>\n"

/-- The same card template with the escaped texts handed in as parameters
(titleE, srcE, authorE, catE, sumE already escaped, dateS already
formatted); the URL and id still come raw from the record.  Used to state
that renderArticleCard depends on the text fields only through
escapeHtml. -/
def articleCardShell (a : ArticleView) (dateS titleE srcE authorE catE sumE : String) : String :=
  "\n<div class=\"article-card " ++ (if a.is_read then "" else "unread")
    ++ "\">\n<div class=\"article-card-header\">\n<h3 class=\"article-card-title\" onclick=\"openArticle("
    ++ toString a.id ++ ")\">\n" ++ titleE
    ++ "\n</h3>\n</div>\n<div class=\"article-meta\">\n<span class=\"meta-item\">\n<strong>Source:</strong> "
    ++ srcE ++ "\n</span>\n"
    ++ (if truthy a.author then
          "<span class=\"meta-item\">\n<strong>By:</strong> " ++ authorE ++ "\n</span>\n"
        else "")
    ++ (if truthy a.published_date then
          "<span class=\"meta-item\">\n📅 " ++ dateS ++ "\n</span>\n"
        else "")
    ++ (if truthy a.category then
          "<span class=\"category-badge\">" ++ catE ++ "</span>\n"
        else "")
    ++ "</div>\n"
    ++ (if truthy a.summary then
          "<p class=\"article-excerpt\">" ++ sumE ++ "...</p>\n"
        else "")
    ++ "<div class=\"article-actions\">\n<button onclick=\"toggleStar(" ++ toString a.id
    ++ ")\" class=\"btn btn-secondary\">\n" ++ (if a.is_starred then "★" else "☆")
    ++ " Star\n</button>\n<button onclick=\"markAsRead(" ++ toString a.id
    ++ ")\" class=\"btn btn-secondary\">\n✓ Mark Read\n</button>\n<a href=\""
    ++ a.url
    ++ "\" target=\"_blank\" class=\"btn btn-primary\">\nRead →\n</a>\n</div>\n</div>\n"

/-- Embeds renderArticles from app.js: an empty or missing list renders the
"No articles found" placeholder, otherwise the concatenation of the
per-article cards. -/
def renderArticles (fd : String → String) (articles : List ArticleView) : String :=
  if articles.isEmpty then "<div class=\"loading\">No articles found</div>"
  else String.join (articles.map (renderArticleCard fd))

/- ### Portfolio/blog site renderer (embedded from blogWebsite/js/main.js) -/

/-- A blog post entry as read from blog/posts.json. -/
structure Post where
  slug : String
  title : String
  date : String
  excerpt : String
deriving DecidableEq

/-- A project entry as read from projects/projects.json. -/
structure Project where
  name : String
  description : String
  tech : Option String
  image : Option String
  github : Option String
  demo : Option String
deriving DecidableEq

/-- Embeds the per-post template literal of renderBlogList in main.js
(inter-tag whitespace condensed; `fd` abstracts formatDate).  Slug, title
and excerpt are interpolated with no escaping. -/
def renderBlogItem (fd : String → String) (p : Post) : String :=
  "\n<article class=\"blog-item\" data-slug=\"" ++ p.slug ++ "\">\n<h3>" ++ p.title
    ++ "</h3>\n<div class=\"blog-meta\">" ++ fd p.date ++ "</div>\n<p class=\"blog-excerpt\">"
    ++ p.excerpt ++ "</p>\n</article>\n"

/-- Embeds renderBlogList from main.js: placeholder on an empty post list,
otherwise the concatenation of the per-post items. -/
def renderBlogList (fd : String → String) (posts : List Post) : String :=
  if posts.isEmpty then "<p class=\"error\">No blog posts available yet.</p>"
  else String.join (posts.map (renderBlogItem fd))

/-- Embeds renderProjectLinks from main.js: GitHub and Live Demo anchors
for the truthy link fields, joined by " | " inside a wrapper div. -/
def renderProjectLinks (p : Project) : String :=
  let links :=
    (if truthy p.github then
       ["<a href=\"" ++ p.github.getD "" ++ "\" target=\"_blank\" rel=\"noopener noreferrer\">GitHub</a>"]
     else []) ++
    (if truthy p.demo then
       ["<a href=\"" ++ p.demo.getD "" ++ "\" target=\"_blank\" rel=\"noopener noreferrer\">Live Demo</a>"]
     else [])
  if links.length > 0 then
    "<div class=\"project-links\" style=\"margin-top: 1rem; display: flex; gap: 1rem;\">"
      ++ String.intercalate " | " links ++ "</div>"
  else ""

/-- Embeds the per-project template literal of renderProjects in main.js
(inter-tag whitespace condensed).  Name, description, tech, image filename
and link URLs are interpolated with no escaping. -/
def renderProjectItem (p : Project) : String :=
  "\n<article class=\"project-item\">\n<h3>" ++ p.name ++ "</h3>\n<p class=\"project-description\">"
    ++ p.description ++ "</p>\n"
    ++ (if truthy p.tech then "<p class=\"project-tech\">Tech: " ++ p.tech.getD "" ++ "</p>" else "")
    ++ "\n"
    ++ (if truthy p.image then
          "<img src=\"projects/images/" ++ p.image.getD "" ++ "\" alt=\"" ++ p.name
            ++ "\" class=\"project-image\" loading=\"lazy\">"
        else "")
    ++ "\n" ++ renderProjectLinks p ++ "\n</article>\n"

/-- Embeds renderProjects from main.js: placeholder on an empty project
list, otherwise the concatenation of the per-project items. -/
def renderProjects (projects : List Project) : String :=
  if projects.isEmpty then "<p class=\"error\">No projects available yet.</p>"
  else String.join (projects.map renderProjectItem)

/- ### Rules engine (embedded from day-in-the-life-engine/core/engine.js) -/

/-- Embeds the RulesEngine class of engine.js; the class holds no state. -/
inductive RulesEngine
  | mk

/-- The object literal returned by RulesEngine.receiveForm. -/
structure EngineResult (α : Type) where
  status : String
  data : α

/-- Embeds RulesEngine.receiveForm from engine.js: it returns a record with
status "received" whose data field is the argument, unmodified (the
console.log side effects are not modelled). -/
def RulesEngine.receiveForm {α : Type} (_e : RulesEngine) (ourForm : α) : EngineResult α :=
  { status := "received", data := ourForm }

/-- String containment: a occurs contiguously in b (a's characters are an
infix of b's characters). -/
def occursIn (a b : String) : Prop := a.data <:+: b.data

/- ### Helper lemmas -/

lemma length_filter_not_add {α : Type} (p : α → Bool) (l : List α) :
    (l.filter (fun a => !(p a))).length + (l.filter p).length = l.length := by
  induction l with
  | nil => simp
  | cons x xs ih =>
    by_cases hx : p x = true
    · simp [List.filter, hx, ← ih]; omega
    · simp at hx
      simp [List.filter, hx, ← ih]; omega

lemma hasKey_iff (s : Store) (k : String) :
    s.hasKey k = true ↔ ∃ a ∈ s.articles, a.dedupeKey = k := by
  simp [Store.hasKey, List.any_eq_true, beq_iff_eq]

lemma hasKey_insert (s : Store) (x : Article) (n : Nat) (k : String) :
    (Store.mk (s.articles ++ [x]) n).hasKey k = (s.hasKey k || (x.dedupeKey == k)) := by
  simp [Store.hasKey, List.any_append]

lemma upsert_cons_skip (now : Nat) (c : Candidate) (rest : List Candidate) (s : Store)
    (h : s.hasKey c.dedupeKey = true) :
    upsert now (c :: rest) s =
      ((upsert now rest s).1, (upsert now rest s).2.1, (upsert now rest s).2.2 + 1) := by
  simp [upsert, h]

lemma upsert_cons_ins (now : Nat) (c : Candidate) (rest : List Candidate) (s : Store)
    (h : s.hasKey c.dedupeKey = false) :
    upsert now (c :: rest) s =
      ((upsert now rest (Store.mk (s.articles ++ [candidateToArticle now s.nextId c]) (s.nextId + 1))).1,
       (upsert now rest (Store.mk (s.articles ++ [candidateToArticle now s.nextId c]) (s.nextId + 1))).2.1 + 1,
       (upsert now rest (Store.mk (s.articles ++ [candidateToArticle now s.nextId c]) (s.nextId + 1))).2.2) := by
  simp [upsert, h]

lemma hasKey_upsert_of_hasKey (now : Nat) (cs : List Candidate) (s : Store) (k : String)
    (h : s.hasKey k = true) : ((upsert now cs s).1).hasKey k = true := by
  induction cs generalizing s with
  | nil => simpa [upsert]
  | cons c rest ih =>
    by_cases hc : s.hasKey c.dedupeKey = true
    · rw [upsert_cons_skip now c rest s hc]
      exact ih s h
    · rw [upsert_cons_ins now c rest s (by simpa using hc)]
      apply ih
      rw [hasKey_insert]
      simp [h]

lemma upsert_all_keys_present (now : Nat) (cs : List Candidate) (s : Store) :
    ∀ c ∈ cs, ((upsert now cs s).1).hasKey c.dedupeKey = true := by
  induction cs generalizing s with
  | nil => intro c hc; cases hc
  | cons c rest ih =>
    intro c' hc'
    by_cases hc : s.hasKey c.dedupeKey = true
    · rw [upsert_cons_skip now c rest s hc]
      rcases List.mem_cons.1 hc' with h1 | h1
      · subst h1; exact hasKey_upsert_of_hasKey now rest s _ hc
      · exact ih s c' h1
    · rw [upsert_cons_ins now c rest s (by simpa using hc)]
      rcases List.mem_cons.1 hc' with h1 | h1
      · subst h1
        apply hasKey_upsert_of_hasKey
        rw [hasKey_insert]
        simp [candidateToArticle]
      · exact ih _ c' h1

lemma upsert_noop_of_all_present (now : Nat) (cs : List Candidate) (s : Store)
    (h : ∀ c ∈ cs, s.hasKey c.dedupeKey = true) :
    upsert now cs s = (s, 0, cs.length) := by
  induction cs with
  | nil => simp [upsert]
  | cons c rest ih =>
    rw [upsert_cons_skip now c rest s (h c (List.mem_cons_self c rest))]
    rw [ih (fun c' hc' => h c' (List.mem_cons_of_mem c hc'))]
    simp

lemma upsert_nodup_keys (now : Nat) (cs : List Candidate) (s : Store)
    (h : (s.articles.map (fun a => a.dedupeKey)).Nodup) :
    ((upsert now cs s).1.articles.map (fun a => a.dedupeKey)).Nodup := by
  induction cs generalizing s with
  | nil => simpa [upsert]
  | cons c rest ih =>
    by_cases hc : s.hasKey c.dedupeKey = true
    · rw [upsert_cons_skip now c rest s hc]
      exact ih s h
    · rw [upsert_cons_ins now c rest s (by simpa using hc)]
      apply ih
      simp only [List.map_append, List.map_cons, List.map_nil]
      rw [List.nodup_append]
      refine ⟨h, by simp, ?_⟩
      intro k hk hk1
      simp at hk1
      rcases List.mem_map.1 hk with ⟨a, ha, hak⟩
      apply hc
      rw [hasKey_iff]
      exact ⟨a, ha, by rw [hak, hk1]; rfl⟩

/- ### Claim theorems -/

/-- C1: ingestion via upsert is idempotent — a second upsert with the same
candidates leaves the store unchanged and reports insertedCount = 0 (all
candidates skipped); re-ingesting a candidate whose deduplication key
already exists is a no-op; and upsert preserves uniqueness of the
deduplication key across the store. -/
theorem upsert_idempotent (now now2 : Nat) (cs : List Candidate) (s : Store)
    (hnd : (s.articles.map (fun a => a.dedupeKey)).Nodup) :
    upsert now2 cs (upsert now cs s).1 = ((upsert now cs s).1, 0, cs.length)
    ∧ ((upsert now cs s).1.articles.map (fun a => a.dedupeKey)).Nodup
    ∧ (∀ c : Candidate, s.hasKey c.dedupeKey = true → upsert now [c] s = (s, 0, 1)) := by
  refine ⟨?_, upsert_nodup_keys now cs s hnd, ?_⟩
  · exact upsert_noop_of_all_present now2 cs _ (upsert_all_keys_present now cs s)
  · intro c hc
    rw [upsert_cons_skip now c [] s hc]
    simp [upsert]

/-- C3: cleanup retains every starred article regardless of age and deletes
exactly the non-starred articles older than the threshold; the deleted
count accounts for the difference. -/
theorem cleanup_retains_starred (now d : Nat) (s : Store) :
    (∀ a : Article, a ∈ (cleanup now d s).1.articles ↔
      (a ∈ s.articles ∧ (a.isStarred = true ∨ ¬(a.ingestedAt + d * secondsPerDay < now))))
    ∧ (cleanup now d s).2 + (cleanup now d s).1.articles.length = s.articles.length := by
  constructor
  · intro a
    simp [cleanup, List.mem_filter]
  · simpa [cleanup] using
      length_filter_not_add
        (fun a => a.isStarred || !(decide (a.ingestedAt + d * secondsPerDay < now))) s.articles

/-- C8: the rules engine's single method echoes its input — the returned
record's data field is exactly the argument and its status is "received". -/
theorem receiveForm_echoes_input (α : Type) (e : RulesEngine) (f : α) :
    (e.receiveForm f).data = f ∧ (e.receiveForm f).status = "received" :=
  ⟨rfl, rfl⟩

lemma runIngestion_append (w : String → FeedResponse) (now : Nat) (l1 l2 : List Source) (s : Store) :
    runIngestion w now (l1 ++ l2) s =
      ((runIngestion w now l2 (runIngestion w now l1 s).1).1,
       (runIngestion w now l1 s).2 ++ (runIngestion w now l2 (runIngestion w now l1 s).1).2) := by
  induction l1 generalizing s with
  | nil => simp [runIngestion]
  | cons src rest ih =>
    by_cases ha : src.active = true
    · simp [runIngestion, ha, ih]
    · simp only [List.cons_append, runIngestion, Bool.not_eq_true] at *
      simp [ha, ih]

lemma runIngestion_length (w : String → FeedResponse) (now : Nat) (l : List Source) (s : Store) :
    (runIngestion w now l s).2.length = (l.filter (fun x => x.active)).length := by
  induction l generalizing s with
  | nil => simp [runIngestion]
  | cons src rest ih =>
    by_cases ha : src.active = true
    · simp [runIngestion, ha, List.filter, ih]
    · simp only [Bool.not_eq_true] at ha
      simp [runIngestion, ha, List.filter, ih]

lemma processSource_fail (w : String → FeedResponse) (now : Nat) (src : Source) (s : Store)
    (reason : String) (h : (fetchFeed src (w src.feedUrl)).failure = some reason) :
    processSource w now src s = (s, Outcome.mk src.name 0 0 (some reason)) := by
  simp [processSource, h]

/-- C5: runIngestion isolates per-source failure — with a failing source
spliced anywhere into the active list, the final store is the same as if
that source were absent, the failing source contributes exactly one outcome
carrying its failure reason and zero counts, every other source's outcome
is unchanged, and every active source always gets exactly one outcome. -/
theorem runIngestion_partial_failure (w : String → FeedResponse) (now : Nat)
    (l1 l2 : List Source) (src : Source) (s : Store) (reason : String)
    (hact : src.active = true)
    (hfail : (fetchFeed src (w src.feedUrl)).failure = some reason) :
    (runIngestion w now (l1 ++ src :: l2) s).1 = (runIngestion w now (l1 ++ l2) s).1
    ∧ (runIngestion w now (l1 ++ src :: l2) s).2 =
        (runIngestion w now l1 s).2
          ++ Outcome.mk src.name 0 0 (some reason)
            :: (runIngestion w now l2 (runIngestion w now l1 s).1).2
    ∧ (runIngestion w now (l1 ++ l2) s).2 =
        (runIngestion w now l1 s).2 ++ (runIngestion w now l2 (runIngestion w now l1 s).1).2
    ∧ (∀ (l : List Source) (s0 : Store),
        (runIngestion w now l s0).2.length = (l.filter (fun x => x.active)).length) := by
  have hcons : runIngestion w now (src :: l2) (runIngestion w now l1 s).1 =
      ((runIngestion w now l2 (runIngestion w now l1 s).1).1,
       Outcome.mk src.name 0 0 (some reason)
         :: (runIngestion w now l2 (runIngestion w now l1 s).1).2) := by
    simp [runIngestion, hact, processSource_fail w now src _ reason hfail]
  refine ⟨?_, ?_, ?_, fun l s0 => runIngestion_length w now l s0⟩
  · rw [runIngestion_append w now l1 (src :: l2) s, runIngestion_append w now l1 l2 s, hcons]
  · rw [runIngestion_append w now l1 (src :: l2) s, hcons]
  · rw [runIngestion_append w now l1 l2 s]

lemma upsert_fresh (now : Nat) (cs : List Candidate) (s : Store)
    (hfresh : ∀ c ∈ cs, s.hasKey c.dedupeKey = false)
    (hnd : (cs.map (fun c => c.dedupeKey)).Nodup) :
    (upsert now cs s).2.1 = cs.length ∧ (upsert now cs s).2.2 = 0 := by
  induction cs generalizing s with
  | nil => simp [upsert]
  | cons c rest ih =>
    have hc : s.hasKey c.dedupeKey = false := hfresh c (List.mem_cons_self c rest)
    rw [upsert_cons_ins now c rest s hc]
    simp only [List.map_cons, List.nodup_cons] at hnd
    have hrest : ∀ c' ∈ rest,
        (Store.mk (s.articles ++ [candidateToArticle now s.nextId c]) (s.nextId + 1)).hasKey
          c'.dedupeKey = false := by
      intro c' hc'
      rw [hasKey_insert]
      have h1 : s.hasKey c'.dedupeKey = false := hfresh c' (List.mem_cons_of_mem c hc')
      have h2 : c.dedupeKey ≠ c'.dedupeKey := by
        intro he
        exact hnd.1 (he ▸ List.mem_map_of_mem (fun x => x.dedupeKey) hc')
      simp [candidateToArticle, h1, h2]
    have := ih _ hrest hnd.2
    simp [this]

/-- C6: FeedFetcher.fetch is total at its boundary — every failing response
(non-2xx status, timeout, malformed body) yields a FetchResult with a
failure reason rather than an exception; on success, exactly the entries
lacking a usable absolute URL are dropped and counted as skipped, and with
a fresh store the inserted count equals the number of usable entries. -/
theorem fetchFeed_total_and_skips (src : Source) (entries : List Entry)
    (status now : Nat) (s : Store)
    (hfresh : ∀ c ∈ (fetchFeed src (FeedResponse.ok entries)).candidates,
        s.hasKey c.dedupeKey = false)
    (hnd : ((fetchFeed src (FeedResponse.ok entries)).candidates.map
        (fun c => c.dedupeKey)).Nodup) :
    (fetchFeed src (FeedResponse.ok entries)).failure = none
    ∧ (fetchFeed src (FeedResponse.ok entries)).candidates
        = (entries.filter usableEntry).map (normalizeEntry src)
    ∧ (fetchFeed src (FeedResponse.ok entries)).skipped
        = (entries.filter (fun e => !(usableEntry e))).length
    ∧ (fetchFeed src (FeedResponse.ok entries)).candidates.length
        + (fetchFeed src (FeedResponse.ok entries)).skipped = entries.length
    ∧ (upsert now (fetchFeed src (FeedResponse.ok entries)).candidates s).2.1
        = (entries.filter usableEntry).length
    ∧ (fetchFeed src (FeedResponse.httpError status)).failure
        = some ("HTTP " ++ toString status)
    ∧ (fetchFeed src FeedResponse.timeout).failure = some "timeout"
    ∧ (fetchFeed src FeedResponse.malformed).failure = some "malformed feed body" := by
  refine ⟨rfl, rfl, rfl, ?_, ?_, rfl, rfl, rfl⟩
  · simp only [fetchFeed, List.length_map]
    have := length_filter_not_add usableEntry entries
    omega
  · have := upsert_fresh now (fetchFeed src (FeedResponse.ok entries)).candidates s hfresh hnd
    simp only [fetchFeed] at this ⊢
    simp [this.1]

lemma addSource_ok_nodup (reg : List Source) (new : Source) (reg' : List Source)
    (h : uniqueActiveFeeds reg) (hok : addSource reg new = Except.ok reg') :
    uniqueActiveFeeds reg' := by
  by_cases hdup : (reg.any (fun s0 => s0.active && s0.feedUrl == new.feedUrl)) = true
  · simp [addSource, hdup] at hok
  · simp only [addSource, hdup, Bool.false_eq_true, if_false, Except.ok.injEq] at hok
    subst hok
    unfold uniqueActiveFeeds at h ⊢
    rw [List.filter_append, List.map_append]
    by_cases hna : new.active = true
    · simp only [List.filter, hna, List.map_cons, List.map_nil]
      rw [List.nodup_append]
      refine ⟨h, by simp, ?_⟩
      intro u hu hu1
      simp only [List.map_nil, List.mem_cons, List.not_mem_nil, or_false] at hu1
      subst hu1
      rcases List.mem_map.1 hu with ⟨s0, hs0, hfeed⟩
      rcases List.mem_filter.1 hs0 with ⟨hs0m, hs0a⟩
      exact hdup (List.any_eq_true.2 ⟨s0, hs0m, by simp [hs0a, hfeed]⟩)
    · simp only [Bool.not_eq_true] at hna
      simp [List.filter, hna, h]
  
lemma filter_map_feeds_sublist (g : Source → Source)
    (hg : ∀ s0, g s0 = s0 ∨ g s0 = { s0 with active := false }) (reg : List Source) :
    (((reg.map g).filter (fun s0 => s0.active)).map (fun s0 => s0.feedUrl)).Sublist
      ((reg.filter (fun s0 => s0.active)).map (fun s0 => s0.feedUrl)) := by
  induction reg with
  | nil => simp
  | cons x xs ih =>
    rw [List.map_cons]
    rcases hg x with h | h
    · rw [h, List.filter_cons, List.filter_cons]
      by_cases ha : x.active = true
      · rw [if_pos ha, if_pos ha, List.map_cons, List.map_cons]
        exact ih.cons₂ x.feedUrl
      · rw [if_neg ha, if_neg ha]
        exact ih
    · rw [h, List.filter_cons]
      rw [if_neg (by simp)]
      rw [List.filter_cons]
      by_cases ha : x.active = true
      · rw [if_pos ha, List.map_cons]
        exact List.Sublist.cons _ ih
      · rw [if_neg ha]
        exact ih

lemma deactivate_feeds_sublist (i : Nat) (reg : List Source) :
    ((((reg.map (fun s0 => if s0.id == i then { s0 with active := false } else s0)).filter
        (fun s0 => s0.active)).map (fun s0 => s0.feedUrl))).Sublist
      (((reg.filter (fun s0 => s0.active)).map (fun s0 => s0.feedUrl))) := by
  apply filter_map_feeds_sublist
  intro s0
  by_cases h : (s0.id == i) = true
  · right; simp [h]
  · left; simp only [Bool.not_eq_true] at h; simp [h]

lemma deactivate_ok_nodup (reg : List Source) (i : Nat) (reg' : List Source)
    (h : uniqueActiveFeeds reg) (hok : deactivate reg i = Except.ok reg') :
    uniqueActiveFeeds reg' := by
  by_cases hex : (reg.any (fun s0 => s0.id == i)) = true
  · simp only [deactivate, hex, if_true, Except.ok.injEq] at hok
    subst hok
    exact h.sublist (deactivate_feeds_sublist i reg)
  · simp [deactivate, hex] at hok

/-- C7: SourceRegistry.add rejects a source whose feed URL equals an
existing active source's feed URL with DuplicateFeedURL (the failed call
produces no new registry), and the feed-URL-unique-per-active-source
invariant is preserved by every successful add and deactivate. -/
theorem addSource_duplicate_rejected (reg : List Source) (src : Source)
    (hdup : ∃ s0 ∈ reg, s0.active = true ∧ s0.feedUrl = src.feedUrl) :
    addSource reg src = Except.error RegError.duplicateFeedUrl
    ∧ (∀ (reg2 : List Source) (new : Source) (reg2' : List Source),
        uniqueActiveFeeds reg2 → addSource reg2 new = Except.ok reg2' →
          uniqueActiveFeeds reg2')
    ∧ (∀ (reg2 : List Source) (i : Nat) (reg2' : List Source),
        uniqueActiveFeeds reg2 → deactivate reg2 i = Except.ok reg2' →
          uniqueActiveFeeds reg2') := by
  refine ⟨?_, addSource_ok_nodup, deactivate_ok_nodup⟩
  rcases hdup with ⟨s0, hs0, ha, hf⟩
  have : (reg.any (fun x => x.active && x.feedUrl == src.feedUrl)) = true :=
    List.any_eq_true.2 ⟨s0, hs0, by simp [ha, hf]⟩
  simp [addSource, this]

/- ### Concrete data for witnesses -/

/-- An empty store, as created on first startup. -/
def exStoreEmpty : Store := Store.mk [] 1

/-- A concrete candidate article. -/
def exCand1 : Candidate :=
  { sourceId := 1, sourceName := "Hacker News", url := "https://example.com/a",
    dedupeKey := dedupeKeyOf "https://example.com/a", title := "A", author := none,
    publishedAt := none, summary := "sa", category := "tech" }

/-- A second concrete candidate article with a distinct URL. -/
def exCand2 : Candidate :=
  { sourceId := 1, sourceName := "Hacker News", url := "https://example.com/b",
    dedupeKey := dedupeKeyOf "https://example.com/b", title := "B", author := none,
    publishedAt := none, summary := "sb", category := "tech" }

/-- Three concrete sources, all active. -/
def exSrcA : Source := Source.mk 1 "A" "https://a.com" "https://a.com/feed" "tech" true

/-- Second concrete source. -/
def exSrcB : Source := Source.mk 2 "B" "https://b.com" "https://b.com/feed" "ai" true

/-- Third concrete source. -/
def exSrcC : Source := Source.mk 3 "C" "https://c.com" "https://c.com/feed" "design" true

/-- One feed entry for source A. -/
def exEntryA : Entry := Entry.mk "https://a.com/x" "Ax" none none "sx"

/-- One feed entry for source C. -/
def exEntryC : Entry := Entry.mk "https://c.com/y" "Cy" none none "sy"

/-- A world in which A's and C's feeds respond and every other URL times
out. -/
def exWorld : String → FeedResponse := fun u =>
  if u = "https://a.com/feed" then FeedResponse.ok [exEntryA]
  else if u = "https://c.com/feed" then FeedResponse.ok [exEntryC]
  else FeedResponse.timeout

/-- A five-entry feed, one entry lacking a usable URL. -/
def exEntries : List Entry :=
  [Entry.mk "https://f.com/1" "t1" none none "s1",
   Entry.mk "https://f.com/2" "t2" none none "s2",
   Entry.mk "" "t3" none none "s3",
   Entry.mk "https://f.com/4" "t4" none none "s4",
   Entry.mk "https://f.com/5" "t5" none none "s5"]

/-- The source owning the five-entry feed. -/
def exFeedSrc : Source := Source.mk 9 "Feedy" "https://f.com" "https://f.com/feed" "tech" true

/-- A registry holding sources A and B. -/
def exRegistry : List Source := [exSrcA, exSrcB]

/-- A source whose feed URL duplicates source A's. -/
def exDupSrc : Source := Source.mk 4 "A again" "https://a2.com" "https://a.com/feed" "tech" true

/-- Witness for C1 at a concrete input: re-upserting two candidates into
the store they were just inserted into changes nothing and inserts zero. -/
theorem upsert_idempotent_witness :
    upsert 200 [exCand1, exCand2] (upsert 100 [exCand1, exCand2] exStoreEmpty).1
      = ((upsert 100 [exCand1, exCand2] exStoreEmpty).1, 0, 2) :=
  (upsert_idempotent 100 200 [exCand1, exCand2] exStoreEmpty (by decide)).1

/-- Witness for C5 at a concrete input: with B's feed timing out between
A and C, the run still yields A's and C's outcomes around B's failure
entry. -/
theorem runIngestion_partial_failure_witness :
    (runIngestion exWorld 100 [exSrcA, exSrcB, exSrcC] exStoreEmpty).2 =
      (runIngestion exWorld 100 [exSrcA] exStoreEmpty).2
        ++ Outcome.mk exSrcB.name 0 0 (some "timeout")
          :: (runIngestion exWorld 100 [exSrcC]
              (runIngestion exWorld 100 [exSrcA] exStoreEmpty).1).2 :=
  (runIngestion_partial_failure exWorld 100 [exSrcA] [exSrcC] exSrcB exStoreEmpty "timeout"
    (by decide) (by decide)).2.1

/-- Witness for C6 at a concrete input: a five-entry feed with one URL-less
entry inserts four articles into a fresh store and counts one skip. -/
theorem fetchFeed_total_and_skips_witness :
    (upsert 100 (fetchFeed exFeedSrc (FeedResponse.ok exEntries)).candidates exStoreEmpty).2.1 = 4
    ∧ (fetchFeed exFeedSrc (FeedResponse.ok exEntries)).skipped = 1 := by
  have h := fetchFeed_total_and_skips exFeedSrc exEntries 404 100 exStoreEmpty
    (by decide) (by decide)
  exact ⟨by rw [h.2.2.2.2.1]; decide, by rw [h.2.2.1]; decide⟩

/-- Witness for C7 at a concrete input: adding a source whose feed URL
duplicates active source A's is rejected. -/
theorem addSource_duplicate_rejected_witness :
    addSource exRegistry exDupSrc = Except.error RegError.duplicateFeedUrl :=
  (addSource_duplicate_rejected exRegistry exDupSrc ⟨exSrcA, by decide⟩).1

/- ### URL normalization lemmas (for C2) -/

lemma splitScheme_skip (c : Char) (cs : List Char) (h : c ≠ ':') :
    splitScheme (c :: cs) = (splitScheme cs).map (fun p => (c :: p.1, p.2)) := by
  rw [splitScheme]
  rw [if_neg (fun hc => h hc.1)]

lemma splitScheme_append (pre suf : List Char) (h : ':' ∉ pre) :
    splitScheme (pre ++ ':' :: '/' :: '/' :: suf) = some (pre, suf) := by
  induction pre with
  | nil => simp [splitScheme]
  | cons c cs ih =>
    rw [List.mem_cons, not_or] at h
    rw [List.cons_append, splitScheme_skip c _ (fun hc => h.1 hc.symm), ih h.2]
    rfl

lemma takeWhile_host (host path : List Char) (hh : ∀ c ∈ host, c ≠ '/')
    (hp : path = [] ∨ path.head? = some '/') :
    (host ++ path).takeWhile (fun c => c != '/') = host
    ∧ (host ++ path).dropWhile (fun c => c != '/') = path := by
  induction host with
  | nil =>
    rcases hp with h | h
    · subst h; simp
    · rcases path with _ | ⟨c, rest⟩
      · simp
      · simp only [List.head?_cons, Option.some.injEq] at h
        subst h
        simp [List.takeWhile_cons, List.dropWhile_cons]
  | cons c cs ih =>
    have hcne : c ≠ '/' := hh c (List.mem_cons_self c cs)
    have ih2 := ih (fun c' hc' => hh c' (List.mem_cons_of_mem c hc'))
    simp only [List.cons_append, List.takeWhile_cons, List.dropWhile_cons, bne_iff_ne, ne_eq,
      hcne, not_false_eq_true, if_true, ih2.1, ih2.2, and_self]

lemma stripTrailingSlash_concat (p : List Char) : stripTrailingSlash (p ++ ['/']) = p := by
  simp [stripTrailingSlash, List.getLast?_concat, List.dropLast_concat]

lemma stripTrailingSlash_of_no_slash (p : List Char) (h : p.getLast? ≠ some '/') :
    stripTrailingSlash p = p := by
  simp [stripTrailingSlash, h]

lemma normalizeUrl_parts (sch host path : String)
    (hs : ':' ∉ sch.data) (hh : ∀ c ∈ host.data, c ≠ '/')
    (hp : path.data = [] ∨ path.data.head? = some '/') :
    normalizeUrl (sch ++ "://" ++ host ++ path)
      = String.mk (sch.data.map Char.toLower) ++ "://"
        ++ String.mk (host.data.map Char.toLower)
        ++ String.mk (stripTrailingSlash path.data) := by
  have hsep : ("://" : String).data = [':', '/', '/'] := rfl
  have hd : (sch ++ "://" ++ host ++ path).data
      = sch.data ++ ':' :: '/' :: '/' :: (host.data ++ path.data) := by
    simp [String.data_append, hsep]
  unfold normalizeUrl
  rw [hd, splitScheme_append _ _ hs]
  have ht := takeWhile_host host.data path.data hh hp
  simp only [ht.1, ht.2]

/-- C2: the deduplication key is insensitive to a trailing slash and to the
case of the URL scheme — the keys of the two URL variants coincide, and
upserting two candidates carrying those two URLs' keys into a store that
does not yet hold the key stores exactly one new article. -/
theorem dedupe_key_normalized_url (sch1 sch2 host rest : String) (now : Nat) (s : Store)
    (h1 : ':' ∉ sch1.data) (h2 : ':' ∉ sch2.data)
    (hlow : sch1.data.map Char.toLower = sch2.data.map Char.toLower)
    (hh : ∀ c ∈ host.data, c ≠ '/')
    (hrest : rest.data = [] ∨ rest.data.head? = some '/')
    (hlast : rest.data.getLast? ≠ some '/')
    (hfresh : s.hasKey (dedupeKeyOf (sch1 ++ "://" ++ host ++ rest ++ "/")) = false) :
    dedupeKeyOf (sch1 ++ "://" ++ host ++ rest ++ "/")
      = dedupeKeyOf (sch2 ++ "://" ++ host ++ rest)
    ∧ ∀ (c1 c2 : Candidate),
        c1.dedupeKey = dedupeKeyOf (sch1 ++ "://" ++ host ++ rest ++ "/") →
        c2.dedupeKey = dedupeKeyOf (sch2 ++ "://" ++ host ++ rest) →
        (upsert now [c1, c2] s).1.articles.length = s.articles.length + 1 := by
  have hslash : ("/" : String).data = ['/'] := rfl
  have haux : (rest ++ "/").data = rest.data ++ ['/'] := by
    rw [String.data_append, hslash]
  have hkeys : dedupeKeyOf (sch1 ++ "://" ++ host ++ rest ++ "/")
      = dedupeKeyOf (sch2 ++ "://" ++ host ++ rest) := by
    unfold dedupeKeyOf
    rw [String.append_assoc (sch1 ++ "://" ++ host) rest "/"]
    rw [normalizeUrl_parts sch1 host (rest ++ "/") h1 hh ?hp1]
    case hp1 =>
      right
      rw [haux]
      rcases hrest with h | h
      · rw [h]; rfl
      · rcases hd : rest.data with _ | ⟨c, t⟩
        · rfl
        · rw [hd] at h
          simp only [List.head?_cons, Option.some.injEq] at h
          subst h
          rfl
    rw [normalizeUrl_parts sch2 host rest h2 hh hrest]
    rw [haux, stripTrailingSlash_concat, stripTrailingSlash_of_no_slash rest.data hlast, hlow]
  refine ⟨hkeys, ?_⟩
  intro c1 c2 hc1 hc2
  have hc2k : c2.dedupeKey = c1.dedupeKey := by rw [hc1, hc2, hkeys]
  have hf1 : s.hasKey c1.dedupeKey = false := by rw [hc1]; exact hfresh
  rw [upsert_cons_ins now c1 [c2] s hf1]
  have hk2 : (Store.mk (s.articles ++ [candidateToArticle now s.nextId c1])
      (s.nextId + 1)).hasKey c2.dedupeKey = true := by
    rw [hasKey_insert]
    simp [candidateToArticle, hc2k]
  rw [upsert_cons_skip now c2 [] _ hk2]
  simp [upsert]

/-- Witness for C2 at a concrete input: upper-cased scheme plus trailing
slash yields the same deduplication key as the lower-cased, slash-free
variant. -/
theorem dedupe_key_normalized_url_witness :
    dedupeKeyOf ("HTTPS" ++ "://" ++ "Example.com" ++ "/a" ++ "/")
      = dedupeKeyOf ("https" ++ "://" ++ "Example.com" ++ "/a") :=
  (dedupe_key_normalized_url "HTTPS" "https" "Example.com" "/a" 100 exStoreEmpty
    (by decide) (by decide) (by decide) (by decide) (by decide) (by decide) (by decide)).1

/- ### Pagination lemmas (for C4) -/

lemma flatten_pages {α : Type} (l : List α) (L : Nat) : ∀ n : Nat,
    ((List.range n).map (fun k => (l.drop (k * L)).take L)).flatten = l.take (n * L) := by
  intro n
  induction n with
  | zero => simp
  | succ n ih =>
    rw [List.range_succ, List.map_append, List.flatten_append, ih]
    simp only [List.map_cons, List.map_nil, List.flatten_cons, List.flatten_nil,
      List.append_nil]
    rw [Nat.succ_mul, List.take_add]

/-- C4: query results are sorted by ingestion timestamp descending with
identifier descending as tie-break, and for a fixed filter set the pages at
consecutive offsets 0, L, 2L, ... concatenate back to the full matching
list, which is a permutation of the filtered store (so no matching article
is missed) with no identifier duplicated. -/
theorem query_pagination_partition (f : Filters) (s : Store) (L : Nat) (hL : 0 < L)
    (hids : (s.articles.map (fun a => a.id)).Nodup) :
    List.Sorted articleLE (matchingArticles f s)
    ∧ ((List.range ((matchingArticles f s).length / L + 1)).map
        (fun k => (query f L (k * L) s).1)).flatten = matchingArticles f s
    ∧ (matchingArticles f s).Perm (s.articles.filter (matchesFilters f))
    ∧ ((matchingArticles f s).map (fun a => a.id)).Nodup := by
  have hperm : (matchingArticles f s).Perm (s.articles.filter (matchesFilters f)) := by
    unfold matchingArticles sortArticles
    exact (List.perm_insertionSort articleLE s.articles).filter (matchesFilters f)
  refine ⟨?_, ?_, hperm, ?_⟩
  · unfold matchingArticles sortArticles
    exact List.Pairwise.filter (matchesFilters f)
      (List.sorted_insertionSort articleLE s.articles)
  · have hq : (fun k => (query f L (k * L) s).1)
        = (fun k => ((matchingArticles f s).drop (k * L)).take L) := rfl
    rw [hq, flatten_pages (matchingArticles f s) L ((matchingArticles f s).length / L + 1)]
    apply List.take_of_length_le
    rw [Nat.succ_mul]
    have h1 := Nat.div_add_mod (matchingArticles f s).length L
    have h2 := Nat.mod_lt (matchingArticles f s).length hL
    have h3 := Nat.mul_comm L ((matchingArticles f s).length / L)
    omega
  · have h3 : ((s.articles.filter (matchesFilters f)).map (fun a => a.id)).Nodup :=
      hids.sublist ((List.filter_sublist s.articles).map (fun a => a.id))
    exact ((hperm.map (fun a => a.id)).symm).nodup h3

/-- A concrete stored article. -/
def exArt1 : Article :=
  { id := 1, sourceId := 1, sourceName := "A", url := "https://a.com/1",
    dedupeKey := "k1", title := "T1", author := none, publishedAt := none,
    summary := "s1", category := "tech", isRead := false, isStarred := false,
    ingestedAt := 10 }

/-- A second concrete stored article. -/
def exArt2 : Article :=
  { id := 2, sourceId := 1, sourceName := "A", url := "https://a.com/2",
    dedupeKey := "k2", title := "T2", author := none, publishedAt := none,
    summary := "s2", category := "tech", isRead := true, isStarred := false,
    ingestedAt := 20 }

/-- A third concrete stored article, tied on ingestion timestamp with the
second. -/
def exArt3 : Article :=
  { id := 3, sourceId := 2, sourceName := "B", url := "https://b.com/3",
    dedupeKey := "k3", title := "T3", author := none, publishedAt := none,
    summary := "s3", category := "ai", isRead := false, isStarred := true,
    ingestedAt := 20 }

/-- A store holding the three concrete articles. -/
def exStore3 : Store := Store.mk [exArt1, exArt2, exArt3] 4

/-- The all-pass filter set. -/
def exFilters : Filters := Filters.mk none none false false none

/-- Witness for C4 at a concrete input: pages of size 2 at offsets 0, 2, 4
concatenate back to the full matching list of the three-article store. -/
theorem query_pagination_partition_witness :
    ((List.range ((matchingArticles exFilters exStore3).length / 2 + 1)).map
        (fun k => (query exFilters 2 (k * 2) exStore3).1)).flatten
      = matchingArticles exFilters exStore3 :=
  (query_pagination_partition exFilters exStore3 2 (by decide) (by decide)).2.1

/- ### String and occursIn helpers (for C9, C10) -/

lemma occursIn_self (a : String) : occursIn a a := ⟨[], [], by simp⟩

lemma occursIn_appendL {a b : String} {c : String} (h : occursIn a b) : occursIn a (b ++ c) := by
  obtain ⟨u, v, huv⟩ := h
  exact ⟨u, v ++ c.data, by rw [String.data_append, ← huv]; simp [List.append_assoc]⟩

lemma occursIn_appendR {a b : String} {c : String} (h : occursIn a b) : occursIn a (c ++ b) := by
  obtain ⟨u, v, huv⟩ := h
  exact ⟨c.data ++ u, v, by rw [String.data_append, ← huv]; simp [List.append_assoc]⟩

lemma occursIn_trans {a b c : String} (h1 : occursIn a b) (h2 : occursIn b c) : occursIn a c := by
  obtain ⟨u, v, huv⟩ := h1
  obtain ⟨w, x, hwx⟩ := h2
  exact ⟨w ++ u, v ++ x, by rw [← hwx, ← huv]; simp [List.append_assoc]⟩

lemma join_foldl_acc (l : List String) : ∀ acc : String,
    l.foldl (fun r s => r ++ s) acc = acc ++ l.foldl (fun r s => r ++ s) "" := by
  induction l with
  | nil => intro acc; simp [String.append_empty]
  | cons x xs ih =>
    intro acc
    simp only [List.foldl_cons]
    rw [ih (acc ++ x), ih ("" ++ x), show ("" ++ x : String) = x from rfl,
      String.append_assoc]

lemma string_join_cons (x : String) (l : List String) :
    String.join (x :: l) = x ++ String.join l := by
  simp only [String.join, List.foldl_cons]
  rw [join_foldl_acc l ("" ++ x), show ("" ++ x : String) = x from rfl]

lemma string_join_append (l1 l2 : List String) :
    String.join (l1 ++ l2) = String.join l1 ++ String.join l2 := by
  induction l1 with
  | nil => rw [List.nil_append]; rfl
  | cons x xs ih =>
    rw [List.cons_append, string_join_cons, string_join_cons, ih, String.append_assoc]

/- ### escapeHtml lemmas (for C9) -/

lemma escapeHtmlAux_append (l1 l2 : List Char) :
    escapeHtmlAux (l1 ++ l2) = escapeHtmlAux l1 ++ escapeHtmlAux l2 := by
  induction l1 with
  | nil => rw [List.nil_append]; rfl
  | cons c cs ih =>
    rw [List.cons_append]
    simp only [escapeHtmlAux]
    rw [ih, String.append_assoc]

lemma escapeChar_safe (c x : Char) (hx : x ∈ (escapeChar c).data) :
    x ≠ '<' ∧ x ≠ '>' ∧ x ≠ '"' ∧ x ≠ '\'' := by
  unfold escapeChar at hx
  split_ifs at hx with h1 h2 h3 h4 h5
  · rw [show ("&amp;" : String).data = ['&', 'a', 'm', 'p', ';'] from rfl] at hx
    simp only [List.mem_cons, List.not_mem_nil, or_false] at hx
    rcases hx with rfl | rfl | rfl | rfl | rfl <;> exact ⟨by decide, by decide, by decide, by decide⟩
  · rw [show ("&lt;" : String).data = ['&', 'l', 't', ';'] from rfl] at hx
    simp only [List.mem_cons, List.not_mem_nil, or_false] at hx
    rcases hx with rfl | rfl | rfl | rfl <;> exact ⟨by decide, by decide, by decide, by decide⟩
  · rw [show ("&gt;" : String).data = ['&', 'g', 't', ';'] from rfl] at hx
    simp only [List.mem_cons, List.not_mem_nil, or_false] at hx
    rcases hx with rfl | rfl | rfl | rfl <;> exact ⟨by decide, by decide, by decide, by decide⟩
  · rw [show ("&quot;" : String).data = ['&', 'q', 'u', 'o', 't', ';'] from rfl] at hx
    simp only [List.mem_cons, List.not_mem_nil, or_false] at hx
    rcases hx with rfl | rfl | rfl | rfl | rfl | rfl <;>
      exact ⟨by decide, by decide, by decide, by decide⟩
  · rw [show ("&#039;" : String).data = ['&', '#', '0', '3', '9', ';'] from rfl] at hx
    simp only [List.mem_cons, List.not_mem_nil, or_false] at hx
    rcases hx with rfl | rfl | rfl | rfl | rfl | rfl <;>
      exact ⟨by decide, by decide, by decide, by decide⟩
  · rw [show (String.singleton c).data = [c] from rfl] at hx
    simp only [List.mem_cons, List.not_mem_nil, or_false] at hx
    subst hx
    exact ⟨h2, h3, h4, h5⟩

lemma escapeHtmlAux_safe (l : List Char) (x : Char) (hx : x ∈ (escapeHtmlAux l).data) :
    x ≠ '<' ∧ x ≠ '>' ∧ x ≠ '"' ∧ x ≠ '\'' := by
  induction l with
  | nil => simp [escapeHtmlAux] at hx
  | cons c cs ih =>
    simp only [escapeHtmlAux, String.data_append, List.mem_append] at hx
    rcases hx with hx | hx
    · exact escapeChar_safe c x hx
    · exact ih hx

lemma escapeHtmlAux_id_of_safe (l : List Char)
    (h : ∀ c ∈ l, c ≠ '&' ∧ c ≠ '<' ∧ c ≠ '>' ∧ c ≠ '"' ∧ c ≠ '\'') :
    escapeHtmlAux l = String.mk l := by
  induction l with
  | nil => rfl
  | cons c cs ih =>
    have hc := h c (List.mem_cons_self c cs)
    simp only [escapeHtmlAux]
    rw [ih (fun c' hc' => h c' (List.mem_cons_of_mem c hc'))]
    unfold escapeChar
    rw [if_neg hc.1, if_neg hc.2.1, if_neg hc.2.2.1, if_neg hc.2.2.2.1, if_neg hc.2.2.2.2]
    apply String.ext
    rw [String.data_append]
    rfl

/-- C9: escapeHtml is the character-wise substitution that maps each of
& < > " ' to its HTML entity and leaves every other character unchanged
(it is a string homomorphism, acts as the identity on strings free of the
five characters, and its output never contains a raw < > " or '), and
renderArticles embeds the title, source name, author, category and summary
only through escapeHtml while the Read-link URL is embedded unescaped
(it occurs verbatim in the card). -/
theorem renderArticles_escapes_fields :
    (∀ s t : String, escapeHtml (s ++ t) = escapeHtml s ++ escapeHtml t)
    ∧ (escapeHtml "&" = "&amp;" ∧ escapeHtml "<" = "&lt;" ∧ escapeHtml ">" = "&gt;"
        ∧ escapeHtml "\"" = "&quot;" ∧ escapeHtml (String.singleton '\'') = "&#039;")
    ∧ (∀ s : String, (∀ c ∈ s.data, c ≠ '&' ∧ c ≠ '<' ∧ c ≠ '>' ∧ c ≠ '"' ∧ c ≠ '\'') →
        escapeHtml s = s)
    ∧ (∀ (s : String) (x : Char), x ∈ (escapeHtml s).data →
        x ≠ '<' ∧ x ≠ '>' ∧ x ≠ '"' ∧ x ≠ '\'')
    ∧ (∀ (fd : String → String) (a : ArticleView),
        renderArticleCard fd a
          = articleCardShell a (fd (a.published_date.getD "")) (escapeHtml a.title)
              (escapeHtml a.source_name) (escapeHtml (a.author.getD ""))
              (escapeHtml (a.category.getD "")) (escapeHtml ((a.summary.getD "").take 200)))
    ∧ (∀ (fd : String → String) (a : ArticleView), occursIn a.url (renderArticleCard fd a))
    ∧ (∀ (fd : String → String) (articles : List ArticleView), articles ≠ [] →
        renderArticles fd articles = String.join (articles.map (renderArticleCard fd))) := by
  refine ⟨?_, ⟨by decide, by decide, by decide, by decide, by decide⟩, ?_, ?_, ?_, ?_, ?_⟩
  · intro s t
    unfold escapeHtml
    rw [String.data_append, escapeHtmlAux_append]
  · intro s h
    unfold escapeHtml
    rw [escapeHtmlAux_id_of_safe s.data h]
  · intro s x hx
    exact escapeHtmlAux_safe s.data x hx
  · intro fd a
    rfl
  · intro fd a
    unfold renderArticleCard
    exact occursIn_appendL (occursIn_appendR (occursIn_self _))
  · intro fd arts h
    unfold renderArticles
    rw [if_neg (by simpa using h)]

/-- Witness for C9 at a concrete input: escapeHtml leaves the safe string
"abc" unchanged. -/
theorem renderArticles_escapes_fields_witness : escapeHtml "abc" = "abc" :=
  renderArticles_escapes_fields.2.2.1 "abc" (by decide)

/- ### Renderer embedding lemmas (for C10) -/

lemma renderBlogItem_has_slug (fd : String → String) (p : Post) :
    occursIn p.slug (renderBlogItem fd p) := by
  unfold renderBlogItem
  exact occursIn_appendL (occursIn_appendL (occursIn_appendL (occursIn_appendL
    (occursIn_appendL (occursIn_appendL (occursIn_appendL
      (occursIn_appendR (occursIn_self _))))))))

lemma renderBlogItem_has_title (fd : String → String) (p : Post) :
    occursIn p.title (renderBlogItem fd p) := by
  unfold renderBlogItem
  exact occursIn_appendL (occursIn_appendL (occursIn_appendL (occursIn_appendL
    (occursIn_appendL (occursIn_appendR (occursIn_self _))))))

lemma renderBlogItem_has_excerpt (fd : String → String) (p : Post) :
    occursIn p.excerpt (renderBlogItem fd p) := by
  unfold renderBlogItem
  exact occursIn_appendL (occursIn_appendR (occursIn_self _))

lemma renderProjectItem_has_name (pr : Project) :
    occursIn pr.name (renderProjectItem pr) := by
  unfold renderProjectItem
  exact occursIn_appendL (occursIn_appendL (occursIn_appendL (occursIn_appendL
    (occursIn_appendL (occursIn_appendL (occursIn_appendL (occursIn_appendL
      (occursIn_appendL (occursIn_appendR (occursIn_self _))))))))))

lemma renderProjectItem_has_description (pr : Project) :
    occursIn pr.description (renderProjectItem pr) := by
  unfold renderProjectItem
  exact occursIn_appendL (occursIn_appendL (occursIn_appendL (occursIn_appendL
    (occursIn_appendL (occursIn_appendL (occursIn_appendL
      (occursIn_appendR (occursIn_self _))))))))

lemma renderProjectItem_has_tech (pr : Project) (h : truthy pr.tech = true) :
    occursIn (pr.tech.getD "") (renderProjectItem pr) := by
  unfold renderProjectItem
  rw [if_pos h]
  exact occursIn_appendL (occursIn_appendL (occursIn_appendL (occursIn_appendL
    (occursIn_appendL (occursIn_appendR (occursIn_appendL
      (occursIn_appendR (occursIn_self _))))))))

lemma renderProjectItem_has_image (pr : Project) (h : truthy pr.image = true) :
    occursIn (pr.image.getD "") (renderProjectItem pr) := by
  unfold renderProjectItem
  rw [if_pos h]
  exact occursIn_appendL (occursIn_appendL (occursIn_appendL
    (occursIn_appendR (occursIn_appendL (occursIn_appendL (occursIn_appendL
      (occursIn_appendR (occursIn_self _))))))))

lemma renderProjectLinks_has_github (pr : Project) (h : truthy pr.github = true) :
    occursIn (pr.github.getD "") (renderProjectLinks pr) := by
  unfold renderProjectLinks
  by_cases hd : truthy pr.demo = true
  · simp only [h, hd, if_true, List.cons_append, List.nil_append, List.length_cons,
      List.length_nil, gt_iff_lt, Nat.zero_lt_succ]
    rw [show String.intercalate " | "
        ["<a href=\"" ++ pr.github.getD "" ++ "\" target=\"_blank\" rel=\"noopener noreferrer\">GitHub</a>",
         "<a href=\"" ++ pr.demo.getD "" ++ "\" target=\"_blank\" rel=\"noopener noreferrer\">Live Demo</a>"]
        = ("<a href=\"" ++ pr.github.getD "" ++ "\" target=\"_blank\" rel=\"noopener noreferrer\">GitHub</a>")
          ++ " | "
          ++ ("<a href=\"" ++ pr.demo.getD "" ++ "\" target=\"_blank\" rel=\"noopener noreferrer\">Live Demo</a>")
      from rfl]
    exact occursIn_appendL (occursIn_appendR (occursIn_appendL (occursIn_appendL
      (occursIn_appendL (occursIn_appendR (occursIn_self _))))))
  · simp only [Bool.not_eq_true] at hd
    simp only [h, hd, if_true, Bool.false_eq_true, if_false, List.append_nil,
      List.length_cons, List.length_nil, gt_iff_lt, Nat.zero_lt_succ]
    rw [show String.intercalate " | "
        ["<a href=\"" ++ pr.github.getD "" ++ "\" target=\"_blank\" rel=\"noopener noreferrer\">GitHub</a>"]
        = "<a href=\"" ++ pr.github.getD "" ++ "\" target=\"_blank\" rel=\"noopener noreferrer\">GitHub</a>"
      from rfl]
    exact occursIn_appendL (occursIn_appendR (occursIn_appendL (occursIn_appendR
      (occursIn_self _))))

lemma renderProjectLinks_has_demo (pr : Project) (h : truthy pr.demo = true) :
    occursIn (pr.demo.getD "") (renderProjectLinks pr) := by
  unfold renderProjectLinks
  by_cases hg : truthy pr.github = true
  · simp only [h, hg, if_true, List.cons_append, List.nil_append, List.length_cons,
      List.length_nil, gt_iff_lt, Nat.zero_lt_succ]
    rw [show String.intercalate " | "
        ["<a href=\"" ++ pr.github.getD "" ++ "\" target=\"_blank\" rel=\"noopener noreferrer\">GitHub</a>",
         "<a href=\"" ++ pr.demo.getD "" ++ "\" target=\"_blank\" rel=\"noopener noreferrer\">Live Demo</a>"]
        = ("<a href=\"" ++ pr.github.getD "" ++ "\" target=\"_blank\" rel=\"noopener noreferrer\">GitHub</a>")
          ++ " | "
          ++ ("<a href=\"" ++ pr.demo.getD "" ++ "\" target=\"_blank\" rel=\"noopener noreferrer\">Live Demo</a>")
      from rfl]
    exact occursIn_appendL (occursIn_appendR (occursIn_appendR (occursIn_appendL
      (occursIn_appendR (occursIn_self _)))))
  · simp only [Bool.not_eq_true] at hg
    simp only [h, hg, if_true, Bool.false_eq_true, if_false, List.nil_append,
      List.length_cons, List.length_nil, gt_iff_lt, Nat.zero_lt_succ]
    rw [show String.intercalate " | "
        ["<a href=\"" ++ pr.demo.getD "" ++ "\" target=\"_blank\" rel=\"noopener noreferrer\">Live Demo</a>"]
        = "<a href=\"" ++ pr.demo.getD "" ++ "\" target=\"_blank\" rel=\"noopener noreferrer\">Live Demo</a>"
      from rfl]
    exact occursIn_appendL (occursIn_appendR (occursIn_appendL (occursIn_appendR
      (occursIn_self _))))

lemma renderProjectItem_has_links (pr : Project) :
    occursIn (renderProjectLinks pr) (renderProjectItem pr) := by
  unfold renderProjectItem
  exact occursIn_appendL (occursIn_appendR (occursIn_self _))

lemma renderBlogList_has_title (fd : String → String) (posts : List Post) (p : Post)
    (hp : p ∈ posts) : occursIn p.title (renderBlogList fd posts) := by
  obtain ⟨l1, l2, rfl⟩ := List.append_of_mem hp
  unfold renderBlogList
  rw [if_neg (by simp)]
  rw [List.map_append, List.map_cons, string_join_append, string_join_cons]
  exact occursIn_appendR (occursIn_appendL (renderBlogItem_has_title fd p))

/-- C10: the portfolio/blog renderer escapes nothing — each post's slug,
title and excerpt occur verbatim in its rendered blog item (and in the
rendered list), and each project's name, description, tech, image filename
and link URLs occur verbatim in its rendered project item; the list
renderers are the plain concatenation of the items. -/
theorem blog_renderer_no_escaping :
    (∀ (fd : String → String) (p : Post),
        occursIn p.slug (renderBlogItem fd p) ∧ occursIn p.title (renderBlogItem fd p)
          ∧ occursIn p.excerpt (renderBlogItem fd p))
    ∧ (∀ (fd : String → String) (posts : List Post) (p : Post), p ∈ posts →
        occursIn p.title (renderBlogList fd posts))
    ∧ (∀ pr : Project, occursIn pr.name (renderProjectItem pr)
        ∧ occursIn pr.description (renderProjectItem pr))
    ∧ (∀ pr : Project, truthy pr.tech = true →
        occursIn (pr.tech.getD "") (renderProjectItem pr))
    ∧ (∀ pr : Project, truthy pr.image = true →
        occursIn (pr.image.getD "") (renderProjectItem pr))
    ∧ (∀ pr : Project, truthy pr.github = true →
        occursIn (pr.github.getD "") (renderProjectItem pr))
    ∧ (∀ pr : Project, truthy pr.demo = true →
        occursIn (pr.demo.getD "") (renderProjectItem pr))
    ∧ (∀ projects : List Project, projects ≠ [] →
        renderProjects projects = String.join (projects.map renderProjectItem)) := by
  refine ⟨?_, renderBlogList_has_title, ?_, renderProjectItem_has_tech,
    renderProjectItem_has_image, ?_, ?_, ?_⟩
  · intro fd p
    exact ⟨renderBlogItem_has_slug fd p, renderBlogItem_has_title fd p,
      renderBlogItem_has_excerpt fd p⟩
  · intro pr
    exact ⟨renderProjectItem_has_name pr, renderProjectItem_has_description pr⟩
  · intro pr h
    exact occursIn_trans (renderProjectLinks_has_github pr h) (renderProjectItem_has_links pr)
  · intro pr h
    exact occursIn_trans (renderProjectLinks_has_demo pr h) (renderProjectItem_has_links pr)
  · intro projects h
    unfold renderProjects
    rw [if_neg (by simpa using h)]

/-- A concrete project with every optional field present. -/
def exProj : Project :=
  Project.mk "P" "D" (some "Lean") (some "p.png") (some "https://g.com/p") (some "https://d.com/p")

/-- Witness for C10 at a concrete input: the concrete project's GitHub URL
occurs verbatim in its rendered item. -/
theorem blog_renderer_no_escaping_witness :
    occursIn (exProj.github.getD "") (renderProjectItem exProj) :=
  blog_renderer_no_escaping.2.2.2.2.2.1 exProj (by decide)
